import Mathlib

/-!
Shallow embedding of the gretatesini.it repository pieces under verification:

* `TableOfContentsManager` (client-side TOC controller): heading exclusion,
  TOC generation, active-item tracking on scroll, programmatic-scroll
  suppression, mobile collapse/expand gestures.
* the `@walle` scaffolding CLI (`cli.sh`): failure handling and the
  `.walle.config.json` file it writes.
* `calculateReadingTime` from `helpers.ts`.

DOM and environment readings (bounding rectangles, computed styles, the
viewport width, touch coordinates, wall-clock time) are passed in as explicit
parameters; the controller state is an explicit record threaded through the
operations.
-/

/-- A heading element as far as the TOC controller observes it.  DOM queries on
the element (`hasAttribute`, `classList.contains`, `closest`, `matches`) are
modelled as boolean-valued functions of the argument string. -/
structure Heading where
  id : String
  tagName : String
  textContent : String
  hasAttribute : String → Bool
  classListContains : String → Bool
  closestHasAttr : String → Bool
  matchesSelector : String → Bool

/-- TocItem from the source: heading id, text and the element reference. -/
structure TocItem where
  id : String
  text : String
  element : Heading

/-- TableOfContentsOptions.  A `""` value for the skip attribute/class fields
models a JavaScript falsy (unset or empty) option, which disables the
corresponding check.  RegExp patterns are modelled as their `test` functions. -/
structure TableOfContentsOptions where
  headingSelector : String
  excludeSelectors : List String
  skipAttribute : String
  skipClassName : String
  skipContainerAttribute : String
  excludeTextPatterns : List (String → Bool)

/-- Defaults installed by the constructor of TableOfContentsManager. -/
def defaultOptions : TableOfContentsOptions :=
  { headingSelector := "h2, h3"
    excludeSelectors := []
    skipAttribute := "data-toc-skip"
    skipClassName := "toc-skip"
    skipContainerAttribute := "data-toc-skip-container"
    excludeTextPatterns := [] }

/-- Mutable fields of TableOfContentsManager that the modelled operations
read or write. -/
structure TocState where
  tocItems : List TocItem
  currentActiveIndex : Int
  isScrolling : Bool
  isMobile : Bool
  lastScrollTimestamp : Int
  collapsed : Bool

/-- shouldExcludeHeading: the early-return chain of checks, in source order. -/
def shouldExcludeHeading (opts : TableOfContentsOptions) (el : Heading) : Bool :=
  if opts.skipAttribute ≠ "" ∧ el.hasAttribute opts.skipAttribute = true then true
  else if opts.skipClassName ≠ "" ∧ el.classListContains opts.skipClassName = true then true
  else if opts.skipContainerAttribute ≠ "" ∧ el.closestHasAttr opts.skipContainerAttribute = true then
    true
  else if opts.excludeSelectors.any (fun sel => el.matchesSelector sel) = true then true
  else if opts.excludeTextPatterns.any (fun re => re (String.trim el.textContent)) = true then true
  else false

/-- Combining diacritical marks block U+0300 to U+036F, removed by the slug
generator after NFD normalisation. -/
def isCombiningMark (c : Char) : Bool :=
  0x300 ≤ c.toNat ∧ c.toNat ≤ 0x36F

/-- JavaScript regex word character: letters, digits and underscore. -/
def isWordChar (c : Char) : Bool :=
  c.isAlphanum || c == '_'

/-- Replacement of every maximal whitespace run by a single dash, as the
global regex replace of whitespace-plus by a dash does. -/
def collapseWhitespaceToDash : List Char → List Char
  | [] => []
  | c :: cs =>
    if c.isWhitespace then
      '-' :: collapseWhitespaceToDash (cs.dropWhile (fun d => d.isWhitespace))
    else c :: collapseWhitespaceToDash cs
termination_by l => l.length
decreasing_by
  all_goals simp only [List.length_cons]
  · have := (List.dropWhile_sublist (l := cs) (fun d => d.isWhitespace)).length_le
    omega
  · omega

/-- Slug part of generateHeadingId: lowercase, strip combining marks (the NFD
decomposition itself is not modelled; precomposed characters are kept as is),
drop characters outside word/whitespace/dash, turn whitespace runs into
dashes, and keep the first 50 characters. -/
def slugify (text : String) : String :=
  let step1 := (text.toLower).data.filter (fun c => !(isCombiningMark c))
  let step2 := step1.filter (fun c => isWordChar c || c.isWhitespace || c == '-')
  String.mk ((collapseWhitespaceToDash step2).take 50)

/-- generateHeadingId: tag name in lowercase, the index of the heading in the
full query result, and the slug of its text. -/
def generateHeadingId (el : Heading) (index : Nat) : String :=
  el.tagName.toLower ++ "-" ++ toString index ++ "-" ++ slugify el.textContent

/-- Loop body of generateTOC: walk the queried headings with their query
index, skip excluded ones (without reserving a TOC position for them), give
each kept heading its existing id or a generated one, and push a TocItem. -/
def generateTOCAux (opts : TableOfContentsOptions) : List Heading → Nat → List TocItem
  | [], _ => []
  | h :: rest, index =>
    if shouldExcludeHeading opts h = true then generateTOCAux opts rest (index + 1)
    else
      { id := if h.id = "" then generateHeadingId h index else h.id
        text := h.textContent
        element := h } :: generateTOCAux opts rest (index + 1)

/-- generateTOC restricted to the tocItems list it produces from the queried
headings (DOM link creation is not part of the state we track). -/
def generateTOCItems (opts : TableOfContentsOptions) (headings : List Heading) : List TocItem :=
  generateTOCAux opts headings 0

/-- getDynamicOffset: 120 off mobile; on mobile the parsed scroll-margin-top
of the first TOC item when it parses (`none` models NaN) to a positive value,
and 100 otherwise. -/
def getDynamicOffset (st : TocState) (scrollMarginParse : Heading → Option Int) : Int :=
  if st.isMobile = false then 120
  else
    match st.tocItems.head? with
    | some first =>
      match scrollMarginParse first.element with
      | some sm => if sm > 0 then sm else 100
      | none => 100
    | none => 100

/-- Loop of updateActiveTOC: for each index in order, remember it as the
active index whenever the element top is at or above the threshold. -/
def activeIndexGo : List Int → Int → Nat → Int → Int
  | [], _, _, acc => acc
  | t :: rest, threshold, i, acc =>
    activeIndexGo rest threshold (i + 1) (if t ≤ threshold then (i : Int) else acc)

/-- updateActiveTOC: bail out on an empty TOC or an in-flight programmatic
scroll, otherwise recompute the active index from the element tops
(`rectTop` is the viewport-relative bounding-rect top of an element) and
store it when it changed. -/
def updateActiveTOC (st : TocState) (rectTop : Heading → Int)
    (scrollMarginParse : Heading → Option Int) (scrollTop : Int) : TocState :=
  if st.tocItems.length = 0 ∨ st.isScrolling = true then st
  else
    let offset := getDynamicOffset st scrollMarginParse
    let activeIndex :=
      activeIndexGo (st.tocItems.map (fun it => rectTop it.element + scrollTop))
        (scrollTop + offset) 0 (-1)
    if activeIndex ≠ st.currentActiveIndex then
      { st with currentActiveIndex := activeIndex }
    else st

/-- Entry guard of scrollToElement: reset a stuck flag after 3000 ms, refuse
re-entry while the flag holds, otherwise set the flag and stamp the time.
The boolean result says whether a new programmatic scroll starts. -/
def scrollToElementEnter (st : TocState) (now : Int) : Bool × TocState :=
  let st0 :=
    if st.isScrolling = true ∧ now - st.lastScrollTimestamp > 3000 then
      { st with isScrolling := false }
    else st
  if st0.isScrolling = true then (false, st0)
  else (true, { st0 with isScrolling := true, lastScrollTimestamp := now })

/-- JavaScript Array.prototype.findIndex: index of the first match, -1 when
there is none. -/
def jsFindIndex {α : Type} (p : α → Bool) : List α → Int
  | [] => -1
  | a :: l =>
    if p a = true then 0
    else
      let r := jsFindIndex p l
      if r = -1 then -1 else r + 1

/-- onScrollComplete: clear the in-flight flag and force the clicked link
(identified by the fragment of its href) active when it names a TOC item and
is not active already. -/
def onScrollComplete (st : TocState) (targetId : Option String) : TocState :=
  let st1 := { st with isScrolling := false }
  match targetId with
  | none => st1
  | some tid =>
    let idx := jsFindIndex (fun it => it.id == tid) st1.tocItems
    if idx ≠ -1 ∧ idx ≠ st1.currentActiveIndex then
      { st1 with currentActiveIndex := idx }
    else st1

/-- setupMobileInteraction: nothing without the header element; on mobile,
auto-collapse when more than 6 items exist or the viewport is at most 768
pixels wide. -/
def setupMobileInteraction (st : TocState) (innerWidth : Int) (headerPresent : Bool) : TocState :=
  if headerPresent = false then st
  else if st.isMobile = true then
    if 6 < st.tocItems.length ∨ innerWidth ≤ 768 then { st with collapsed := true } else st
  else st

/-- toggleCollapse from setupHeaderToggle: classList.toggle on "collapsed". -/
def toggleCollapse (st : TocState) : TocState :=
  { st with collapsed := !st.collapsed }

/-- Tap tracking across a touch gesture: `isTap` starts true on touch start
and every touch move farther than 10 pixels from the start in either axis
clears it. -/
def tapIsTap (startX startY : Int) (moves : List (Int × Int)) : Bool :=
  moves.foldl
    (fun tap m =>
      if 10 < (m.2 - startY).natAbs ∨ 10 < (m.1 - startX).natAbs then false else tap)
    true

/-- handleTouchEnd: toggle the collapsed state exactly when the gesture still
counts as a tap. -/
def touchEndToggle (st : TocState) (startX startY : Int) (moves : List (Int × Int)) : TocState :=
  if tapIsTap startX startY moves = true then toggleCollapse st else st

/-- Keydown handler of the header: Enter and Space toggle the collapsed
state. -/
def keydownToggle (st : TocState) (key : String) : TocState :=
  if key = "Enter" ∨ key = " " then toggleCollapse st else st

/-- updateDeviceType: mobile means a viewport of width at most 1024. -/
def updateDeviceType (st : TocState) (innerWidth : Int) : TocState :=
  { st with isMobile := decide (innerWidth ≤ 1024) }

/-- Escape-key handler from bindEvents: collapse the container on mobile. -/
def escapeCollapse (st : TocState) : TocState :=
  if st.isMobile = true then { st with collapsed := true } else st

/-!
The `cli.sh` scaffolding CLI.  A run is modelled as the list of commands the
chosen subcommand invokes, in order.  Although the script sets `set -Ee` and
installs an EXIT trap, `main` invokes the subcommand as `if ! command args`,
and bash suspends errexit for the whole body of a function called in such a
test context (`set -E` only concerns ERR-trap inheritance, and the script
traps only EXIT).  A command therefore aborts the run only when the script
checks it itself: such commands are modelled as guarded (the git clone whose
status is tested, the config-file write and the directory change in `main`
with their or-else error handlers, and the missing-source branch of
sync_files); their failure runs print_error, which prints a line containing
[ERROR] and exits with status 1, upon which the EXIT trap removes the
temporary directory.  An unguarded failing command (the cp and rm calls of
sync_files, the mkdir in init, the cd calls of download_project) is silently
skipped over.  When the function body finishes, `main` tests its return
status, the status of the body's last command, and calls print_error when it
is non-zero; otherwise the run removes the temporary directory and exits 0,
the trap printing nothing.
-/

/-- One command invocation of a CLI run: whether the script checks its exit
status itself, and the status it exits with. -/
structure CliStep where
  guarded : Bool
  code : Nat
deriving DecidableEq

/-- Observable outcome of a CLI run: final exit status, whether a line
containing [ERROR] was printed, whether the temporary directory was removed,
and how many command invocations actually ran. -/
structure CliOutcome where
  exitCode : Nat
  printedErrorLine : Bool
  tempDirRemoved : Bool
  stepsRun : Nat

/-- Runs the subcommand body with errexit suspended, carrying the status of
the previous command: a failing guarded command aborts through print_error
(status 1, [ERROR] printed, temporary directory removed by the trap); a
failing unguarded command is ignored; at the end `main` tests the body's
return status, the status of its last command. -/
def runCliAux : List CliStep → Nat → CliOutcome
  | [], last =>
    if last ≠ 0 then
      { exitCode := 1, printedErrorLine := true, tempDirRemoved := true, stepsRun := 0 }
    else
      { exitCode := 0, printedErrorLine := false, tempDirRemoved := true, stepsRun := 0 }
  | s :: rest, _ =>
    if s.guarded = true ∧ s.code ≠ 0 then
      { exitCode := 1, printedErrorLine := true, tempDirRemoved := true, stepsRun := 1 }
    else
      let o := runCliAux rest s.code
      { o with stepsRun := o.stepsRun + 1 }

/-- A whole CLI run of the modelled command list, started with a clean
status. -/
def runCli (steps : List CliStep) : CliOutcome :=
  runCliAux steps 0

/-- An update run whose sync_files cp -r fails: change into the project root
(guarded by its or-else handler), clone successfully (status-checked), the
unguarded git bookkeeping of download_project, the failing cp, the remaining
unguarded copies, the guarded config write, and the final successful
print_info that determines the body's return status. -/
def updateRunFailingCp : List CliStep :=
  [{ guarded := true, code := 0 },
   { guarded := true, code := 0 },
   { guarded := false, code := 0 },
   { guarded := false, code := 1 },
   { guarded := false, code := 0 },
   { guarded := true, code := 0 },
   { guarded := false, code := 0 }]

/-- An update run whose git clone fails, exercising the guarded path. -/
def updateRunFailingClone : List CliStep :=
  [{ guarded := true, code := 0 },
   { guarded := true, code := 128 }]

/-- bash basename: last non-empty slash-separated component of the path. -/
def shBasename (p : String) : String :=
  match ((p.splitOn "/").filter (fun s => s ≠ "")).getLast? with
  | some s => s
  | none => p

/-- create_config_file: target path `${2:-.}/.walle.config.json` and the three
JSON fields it writes.  The third positional argument defaults to "main" when
absent (`${3-main}`); `now` stands for the formatted `date` output. -/
def create_config_file (project_name : String) (path : Option String)
    (source_version : Option String) (now : String) : String × List (String × String) :=
  ((path.getD ".") ++ "/.walle.config.json",
    [("name", project_name), ("walleVersion", source_version.getD "main"), ("updatedAt", now)])

/-- Config write performed by `init`: `create_config_file "${PROJECT_NAME}"
"${DIR_PATH}/${PROJECT_NAME}"` with no version argument. -/
def initConfigWrite (dirPath projectName now : String) : String × List (String × String) :=
  create_config_file projectName (some (dirPath ++ "/" ++ projectName)) none now

/-- Config write performed by `update`: `create_config_file "$(basename
"${PROJECT_PATH}")" "${PROJECT_PATH}" "${GITHUB_WALLE_VERSION_SHA}"` where the
SHA is the resolved short commit of the cloned source. -/
def updateConfigWrite (projectPath sha now : String) : String × List (String × String) :=
  create_config_file (shBasename projectPath) (some projectPath) (some sha) now

/-!
calculateReadingTime from `helpers.ts`.  The regex replaces are embedded as
character-list scanners with the same matching discipline as the source
patterns: lazy quantifiers take the earliest closing delimiter, `.` does not
cross a newline, and an unmatched opening delimiter is left in place.
-/

/-- Backtick character, written by code point. -/
def backtickChar : Char := Char.ofNat 96

/-- Three backticks: the fence delimiter of a markdown code block. -/
def fencePat : List Char := [backtickChar, backtickChar, backtickChar]

/-- Index of the first occurrence of `pat` as a contiguous sublist. -/
def findSubIdx (pat : List Char) : List Char → Option Nat
  | [] => none
  | c :: cs =>
    if pat.isPrefixOf (c :: cs) then some 0
    else (findSubIdx pat cs).map (fun n => n + 1)

/-- Index of the first occurrence of `pat` reachable without crossing a
newline, as a lazy `.` match cannot. -/
def findSubIdxNoNewline (pat : List Char) : List Char → Option Nat
  | [] => none
  | c :: cs =>
    if pat.isPrefixOf (c :: cs) then some 0
    else if c = '\n' then none
    else (findSubIdxNoNewline pat cs).map (fun n => n + 1)

/-- Length consumed by the tail of a markdown link or image match, starting
right after the opening bracket: lazily up to the first close-bracket-open-
paren, then lazily up to the first closing paren, all on one line. -/
def linkBodyLen (l : List Char) : Option Nat :=
  match findSubIdxNoNewline [']', '('] l with
  | some j1 =>
    match findSubIdxNoNewline [')'] (l.drop (j1 + 2)) with
    | some j2 => some (j1 + 2 + j2 + 1)
    | none => none
  | none => none

/-- Global replace of HTML tags: from an opening angle bracket, drop through
the first closing angle bracket; a bracket never closed stays in place. -/
def removeHtmlL : List Char → List Char
  | [] => []
  | c :: cs =>
    if c = '<' then
      match cs.findIdx? (fun d => d == '>') with
      | some j => removeHtmlL (cs.drop (j + 1))
      | none => c :: cs
    else c :: removeHtmlL cs
termination_by l => l.length
decreasing_by
  all_goals simp only [List.length_cons, List.length_drop]
  · omega
  · omega

/-- Global replace of fenced code blocks: from an opening fence, drop through
the first closing fence; with no closing fence the rest has no match. -/
def removeFencedL : List Char → List Char
  | [] => []
  | c :: cs =>
    if fencePat.isPrefixOf (c :: cs) then
      match findSubIdx fencePat (cs.drop 2) with
      | some j => removeFencedL ((cs.drop 2).drop (j + 3))
      | none => c :: cs
    else c :: removeFencedL cs
termination_by l => l.length
decreasing_by
  all_goals simp only [List.length_cons, List.length_drop]
  · omega
  · omega

/-- Global replace of inline code: from a backtick, drop through the next
backtick; with no further backtick the rest has no match. -/
def removeInlineCodeL : List Char → List Char
  | [] => []
  | c :: cs =>
    if c = backtickChar then
      match cs.findIdx? (fun d => d == backtickChar) with
      | some j => removeInlineCodeL (cs.drop (j + 1))
      | none => c :: cs
    else c :: removeInlineCodeL cs
termination_by l => l.length
decreasing_by
  all_goals simp only [List.length_cons, List.length_drop]
  · omega
  · omega

/-- Global replace of markdown images with the empty string. -/
def removeImagesL : List Char → List Char
  | [] => []
  | '!' :: '[' :: rest =>
    (match linkBodyLen rest with
     | some n => removeImagesL (rest.drop n)
     | none => '!' :: removeImagesL ('[' :: rest))
  | c :: cs => c :: removeImagesL cs
termination_by l => l.length
decreasing_by
  all_goals simp only [List.length_cons, List.length_drop]
  · omega
  · omega
  · omega

/-- Global replace of markdown links with the replacement string `$1`, which
names no capture group of the pattern and therefore stays literal. -/
def replaceLinksL : List Char → List Char
  | [] => []
  | '[' :: rest =>
    (match linkBodyLen rest with
     | some n => '$' :: '1' :: replaceLinksL (rest.drop n)
     | none => '[' :: replaceLinksL rest)
  | c :: cs => c :: replaceLinksL cs
termination_by l => l.length
decreasing_by
  all_goals simp only [List.length_cons, List.length_drop]
  · omega
  · omega
  · omega

/-- Number of markdown image matches in the raw content. -/
def countImagesL : List Char → Nat
  | [] => 0
  | '!' :: '[' :: rest =>
    (match linkBodyLen rest with
     | some n => countImagesL (rest.drop n) + 1
     | none => countImagesL ('[' :: rest))
  | _ :: cs => countImagesL cs
termination_by l => l.length
decreasing_by
  all_goals simp only [List.length_cons, List.length_drop]
  · omega
  · omega
  · omega

/-- Number of fenced code block matches in the raw content. -/
def countFencedL : List Char → Nat
  | [] => 0
  | c :: cs =>
    if fencePat.isPrefixOf (c :: cs) then
      match findSubIdx fencePat (cs.drop 2) with
      | some j => countFencedL ((cs.drop 2).drop (j + 3)) + 1
      | none => 0
    else countFencedL cs
termination_by l => l.length
decreasing_by
  all_goals simp only [List.length_cons, List.length_drop]
  · omega
  · omega

/-- The cleaning pipeline of calculateReadingTime, in source order: strip
HTML tags, fenced code, inline code, images, links, then trim. -/
def cleanTextOf (content : String) : String :=
  (String.mk
    (replaceLinksL (removeImagesL (removeInlineCodeL (removeFencedL
      (removeHtmlL content.data)))))).trim

/-- Word count of the cleaned text: maximal whitespace-separated fragments of
positive length. -/
def wordCountOf (content : String) : Nat :=
  (((cleanTextOf content).split (fun c => c.isWhitespace)).filter
    (fun w => 0 < w.length)).length

/-- Image count of the raw content. -/
def imageCount (content : String) : Nat := countImagesL content.data

/-- Fenced code block count of the raw content. -/
def codeBlockCount (content : String) : Nat := countFencedL content.data

/-!
Concrete fixtures used to witness the hypotheses of the theorems below.
-/

/-- A plain h2 heading carrying no skip markers. -/
def sampleHeading : Heading :=
  { id := "intro"
    tagName := "H2"
    textContent := "Introduction"
    hasAttribute := fun _ => false
    classListContains := fun _ => false
    closestHasAttr := fun _ => false
    matchesSelector := fun _ => false }

/-- A second plain heading. -/
def sampleHeading2 : Heading :=
  { sampleHeading with id := "usage", textContent := "Usage" }

/-- TOC item for the first sample heading. -/
def sampleItem : TocItem :=
  { id := "intro", text := "Introduction", element := sampleHeading }

/-- TOC item for the second sample heading. -/
def sampleItem2 : TocItem :=
  { id := "usage", text := "Usage", element := sampleHeading2 }

/-- Desktop manager state with a two-item TOC and no scroll in flight. -/
def sampleState : TocState :=
  { tocItems := [sampleItem, sampleItem2]
    currentActiveIndex := -1
    isScrolling := false
    isMobile := false
    lastScrollTimestamp := 0
    collapsed := false }

/-- The same state on a mobile viewport. -/
def sampleMobileState : TocState :=
  { sampleState with isMobile := true }

/-- Desktop state with a programmatic scroll flagged in flight at time 0. -/
def sampleScrollState : TocState :=
  { sampleState with isScrolling := true, lastScrollTimestamp := 0 }

/-- Bounding-rect tops used by the scroll-tracking witness. -/
def sampleRectTop : Heading → Int :=
  fun h => if h.id == "intro" then 10 else 500

/-- Computed-style parse that always fails, as on an element without a
scroll-margin-top. -/
def sampleMarginParse : Heading → Option Int :=
  fun _ => none

/-- Return record of calculateReadingTime. -/
structure ReadingTime where
  text : String
  minutes : Nat
  words : Nat

/-- calculateReadingTime: 200 words per minute, 12 seconds per image, 25
seconds per code block, total rounded up; the label pluralises `minute`
whenever the total differs from 1. -/
def calculateReadingTime (content : String) : ReadingTime :=
  let words := wordCountOf content
  let images := imageCount content
  let codeBlocks := codeBlockCount content
  let totalMinutes :=
    (Int.ceil ((words : ℚ) / 200 + (images : ℚ) * 12 / 60 + (codeBlocks : ℚ) * 25 / 60)).toNat
  { text :=
      toString totalMinutes ++ " minute" ++ (if totalMinutes ≠ 1 then "s" else "") ++ " read"
    minutes := totalMinutes
    words := words }

/-!
Supporting lemmas.
-/

/-- The generated TOC items carry exactly the non-excluded headings, in query
order. -/
theorem generateTOCAux_map_element (opts : TableOfContentsOptions) :
    ∀ (hs : List Heading) (idx : Nat),
      (generateTOCAux opts hs idx).map TocItem.element
        = hs.filter (fun h => !shouldExcludeHeading opts h)
  | [], _ => rfl
  | h :: rest, idx => by
    by_cases hx : shouldExcludeHeading opts h = true
    · simp [generateTOCAux, List.filter_cons, hx,
        generateTOCAux_map_element opts rest (idx + 1)]
    · simp [generateTOCAux, List.filter_cons, hx,
        generateTOCAux_map_element opts rest (idx + 1)]

/-- A tap flag once cleared stays cleared for the rest of the gesture. -/
theorem tapFold_false (startX startY : Int) :
    ∀ moves : List (Int × Int),
      moves.foldl
        (fun tap m =>
          if 10 < (m.2 - startY).natAbs ∨ 10 < (m.1 - startX).natAbs then false else tap)
        false = false
  | [] => rfl
  | m :: rest => by
    rw [List.foldl_cons]
    have h := tapFold_false startX startY rest
    convert h using 2
    exact ite_self false

/-- Unfolding of the tap tracking over the first move of a gesture. -/
theorem tapIsTap_cons (startX startY : Int) (m : Int × Int) (rest : List (Int × Int)) :
    tapIsTap startX startY (m :: rest)
      = if 10 < (m.2 - startY).natAbs ∨ 10 < (m.1 - startX).natAbs then false
        else tapIsTap startX startY rest := by
  by_cases hc : 10 < (m.2 - startY).natAbs ∨ 10 < (m.1 - startX).natAbs
  · simp only [tapIsTap, List.foldl_cons, if_pos hc]
    exact tapFold_false startX startY rest
  · simp only [tapIsTap, List.foldl_cons, if_neg hc]

/-- The gesture counts as a tap exactly when every move stayed within 10
pixels of the start in both axes. -/
theorem tapIsTap_iff (startX startY : Int) (moves : List (Int × Int)) :
    tapIsTap startX startY moves = true ↔
      ∀ m ∈ moves, (m.1 - startX).natAbs ≤ 10 ∧ (m.2 - startY).natAbs ≤ 10 := by
  induction moves with
  | nil => simp [tapIsTap]
  | cons m rest ih =>
    rw [tapIsTap_cons, List.forall_mem_cons]
    by_cases hc : 10 < (m.2 - startY).natAbs ∨ 10 < (m.1 - startX).natAbs
    · rw [if_pos hc]
      constructor
      · intro h
        exact absurd h Bool.false_ne_true
      · intro h
        rcases h.1 with ⟨h1, h2⟩
        rcases hc with h3 | h3 <;> omega
    · rw [if_neg hc]
      push_neg at hc
      constructor
      · intro h
        exact ⟨⟨hc.2, hc.1⟩, ih.mp h⟩
      · intro h
        exact ih.mpr h.2

/-- Positional and membership forms of "no element top reaches the line"
agree. -/
theorem no_hit_forms (l : List Int) (thr : Int) :
    (∀ j, j < l.length → ¬ (l.getD j 0 ≤ thr)) ↔ (∀ t ∈ l, ¬ (t ≤ thr)) := by
  constructor
  · intro h t ht
    obtain ⟨⟨j, hj⟩, rfl⟩ := List.mem_iff_get.mp ht
    have hh := h j hj
    rw [List.getD_eq_getElem?_getD, List.getElem?_eq_getElem hj] at hh
    simpa [List.get_eq_getElem] using hh
  · intro h j hj
    have hmem : l.getD j 0 ∈ l := by
      rw [List.getD_eq_getElem?_getD, List.getElem?_eq_getElem hj]
      exact List.getElem_mem hj
    exact h _ hmem

/-- When no element top reaches the line, the scan keeps its accumulator. -/
theorem activeIndexGo_of_no_hit (thr : Int) :
    ∀ (tops : List Int) (i : Nat) (acc : Int),
      (∀ t ∈ tops, ¬ (t ≤ thr)) → activeIndexGo tops thr i acc = acc
  | [], _, _ => fun _ => rfl
  | t :: rest, i, acc => fun h => by
    have ht : ¬ (t ≤ thr) := h t (List.mem_cons_self t rest)
    simp only [activeIndexGo, if_neg ht]
    exact activeIndexGo_of_no_hit thr rest (i + 1) acc
      (fun x hx => h x (List.mem_cons_of_mem t hx))

/-- When position `k` reaches the line and nothing after it does, the scan
lands on `k` (shifted by the index base), whatever the accumulator. -/
theorem activeIndexGo_of_last_hit (thr : Int) :
    ∀ (tops : List Int) (i : Nat) (acc : Int) (k : Nat),
      k < tops.length → tops.getD k 0 ≤ thr →
      (∀ j, k < j → j < tops.length → ¬ (tops.getD j 0 ≤ thr)) →
      activeIndexGo tops thr i acc = ((i + k : Nat) : Int)
  | [], _, _, k => by
    intro hk
    exact absurd hk (by simp)
  | t :: rest, i, acc, 0 => fun hk hhit hlast => by
    have ht : t ≤ thr := by simpa using hhit
    simp only [activeIndexGo, if_pos ht]
    have hmiss : ∀ x ∈ rest, ¬ (x ≤ thr) := by
      rw [← no_hit_forms]
      intro j hj
      have := hlast (j + 1) (Nat.succ_pos j) (by simpa using Nat.succ_lt_succ hj)
      simpa using this
    rw [activeIndexGo_of_no_hit thr rest (i + 1) (i : Int) hmiss]
    simp
  | t :: rest, i, acc, (k + 1) => fun hk hhit hlast => by
    have ih := activeIndexGo_of_last_hit thr rest (i + 1)
      (if t ≤ thr then (i : Int) else acc) k
      (by simpa using hk) (by simpa using hhit)
      (fun j hj1 hj2 => by
        have := hlast (j + 1) (by omega) (by simpa using Nat.succ_lt_succ hj2)
        simpa using this)
    simp only [activeIndexGo]
    rw [ih]
    exact congrArg (fun n : Nat => (n : Int)) (by omega)

/-- Among positions reaching the line there is a last one. -/
theorem exists_last_hit (tops : List Int) (thr : Int)
    (hne : ∃ k, k < tops.length ∧ tops.getD k 0 ≤ thr) :
    ∃ k, k < tops.length ∧ tops.getD k 0 ≤ thr ∧
      ∀ j, k < j → j < tops.length → ¬ (tops.getD j 0 ≤ thr) := by
  classical
  obtain ⟨k0, hk0, hhit0⟩ := hne
  set P : Nat → Prop := fun k => k < tops.length ∧ tops.getD k 0 ≤ thr
  refine ⟨Nat.findGreatest P tops.length, ?_, ?_, ?_⟩
  · exact (Nat.findGreatest_spec (P := P) (Nat.le_of_lt hk0) ⟨hk0, hhit0⟩).1
  · exact (Nat.findGreatest_spec (P := P) (Nat.le_of_lt hk0) ⟨hk0, hhit0⟩).2
  · intro j hj1 hj2 hhit
    exact Nat.findGreatest_is_greatest (P := P) hj1 (Nat.le_of_lt hj2) ⟨hj2, hhit⟩

/-- With pairwise-distinct TOC item ids, findIndex on the id of the k-th item
returns k. -/
theorem jsFindIndex_id_eq (tid : String) :
    ∀ (items : List TocItem) (k : Nat) (hk : k < items.length),
      (items.map TocItem.id).Nodup → (items.get ⟨k, hk⟩).id = tid →
      jsFindIndex (fun it => it.id == tid) items = (k : Int)
  | [], k, hk => by
    exact absurd hk (by simp)
  | it :: rest, 0, hk => fun _ hid => by
    have hb : (it.id == tid) = true := by
      simp only [List.get] at hid
      simp [hid]
    simp [jsFindIndex, hb]
  | it :: rest, k + 1, hk => fun hnd hid => by
    have hk' : k < rest.length := by simpa using hk
    have hid' : (rest.get ⟨k, hk'⟩).id = tid := by
      simpa [List.get] using hid
    have hnd' : (rest.map TocItem.id).Nodup :=
      (List.nodup_cons.mp (by simpa using hnd)).2
    have hne : (it.id == tid) = false := by
      rw [beq_eq_false_iff_ne]
      intro heq
      have hmem : tid ∈ rest.map TocItem.id := by
        rw [← hid']
        exact List.mem_map_of_mem TocItem.id (List.get_mem rest k hk')
      exact (List.nodup_cons.mp (by simpa using hnd)).1 (heq ▸ hmem)
    have ih := jsFindIndex_id_eq tid rest k hk' hnd' hid'
    simp only [jsFindIndex, hne]
    rw [ih]
    have : ((k : Int) = -1) = False := by
      simp only [eq_iff_iff, iff_false]
      omega
    simp only [Bool.false_eq_true, if_false, this, if_false]
    push_cast
    ring

/-!
Claim theorems.
-/

/-- C2: a click entering scrollToElement is suppressed exactly when a
programmatic scroll is in flight and no more than 3000 ms have passed since
the scroll that set the flag; a click that does start a scroll sets the
in-flight flag and stamps it with the click time, so the suppression window
measured by the guard is bounded by 3 seconds. -/
theorem scrollToElement_suppression_bounded (st : TocState) (now : Int) :
    ((scrollToElementEnter st now).1 = false ↔
      (st.isScrolling = true ∧ now - st.lastScrollTimestamp ≤ 3000))
    ∧ ((scrollToElementEnter st now).1 = true →
        ((scrollToElementEnter st now).2.isScrolling = true ∧
          (scrollToElementEnter st now).2.lastScrollTimestamp = now)) := by
  by_cases h1 : st.isScrolling = true ∧ now - st.lastScrollTimestamp > 3000
  · have e1 : scrollToElementEnter st now
        = (true, { st with isScrolling := true, lastScrollTimestamp := now }) := by
      unfold scrollToElementEnter
      rw [if_pos h1]
      rfl
    rw [e1]
    obtain ⟨h1a, h1b⟩ := h1
    constructor
    · constructor
      · intro h
        exact Bool.noConfusion h
      · intro h
        exact absurd h.2 (by omega)
    · intro _
      exact ⟨rfl, rfl⟩
  · by_cases h2 : st.isScrolling = true
    · have h3 : now - st.lastScrollTimestamp ≤ 3000 := by
        by_contra hx
        exact h1 ⟨h2, by omega⟩
      have e2 : scrollToElementEnter st now = (false, st) := by
        unfold scrollToElementEnter
        rw [if_neg h1, if_pos h2]
      rw [e2]
      constructor
      · constructor
        · intro _
          exact ⟨h2, h3⟩
        · intro _
          rfl
      · intro hstart
        exact Bool.noConfusion hstart
    · have e3 : scrollToElementEnter st now
          = (true, { st with isScrolling := true, lastScrollTimestamp := now }) := by
        unfold scrollToElementEnter
        rw [if_neg h1, if_neg h2]
      rw [e3]
      constructor
      · constructor
        · intro h
          exact Bool.noConfusion h
        · intro h
          exact absurd h.1 h2
      · intro _
        exact ⟨rfl, rfl⟩

/-- C2 witness: with a scroll started 5000 ms ago and the flag still set, a
new click is not suppressed, and starting it restamps the flag. -/
theorem scrollToElement_suppression_bounded_witness :
    ((scrollToElementEnter sampleScrollState 5000).1 = false ↔
      (sampleScrollState.isScrolling = true ∧
        (5000 : Int) - sampleScrollState.lastScrollTimestamp ≤ 3000))
    ∧ ((scrollToElementEnter sampleScrollState 5000).1 = true →
        ((scrollToElementEnter sampleScrollState 5000).2.isScrolling = true ∧
          (scrollToElementEnter sampleScrollState 5000).2.lastScrollTimestamp = 5000)) :=
  scrollToElement_suppression_bounded sampleScrollState 5000

/-- C4: with the header present on a mobile device and the panel expanded,
setupMobileInteraction collapses the panel exactly when the TOC has more than
6 items or the viewport is at most 768 pixels wide. -/
theorem setupMobileInteraction_autocollapse (st : TocState) (w : Int)
    (hm : st.isMobile = true) (hc : st.collapsed = false) :
    ((setupMobileInteraction st w true).collapsed = true ↔
      (6 < st.tocItems.length ∨ w ≤ 768)) := by
  by_cases hcond : 6 < st.tocItems.length ∨ w ≤ 768
  · simp [setupMobileInteraction, hm, hcond]
  · simp [setupMobileInteraction, hm, hcond, hc]

/-- C4 witness: a mobile state with two items on a narrow viewport collapses,
as two items on a wide viewport would not. -/
theorem setupMobileInteraction_autocollapse_witness :
    sampleMobileState.isMobile = true ∧ sampleMobileState.collapsed = false ∧
      ((setupMobileInteraction sampleMobileState 600 true).collapsed = true ↔
        (6 < sampleMobileState.tocItems.length ∨ (600 : Int) ≤ 768)) :=
  ⟨rfl, rfl, setupMobileInteraction_autocollapse sampleMobileState 600 rfl rfl⟩

/-- C5: a touch gesture on the header toggles the collapsed state on touch
end exactly when no move strayed more than 10 pixels from the touch start in
either axis, and an Enter or Space keydown toggles it unconditionally. -/
theorem headerToggle_tap_and_keyboard (st : TocState) (startX startY : Int)
    (moves : List (Int × Int)) (key : String) :
    ((touchEndToggle st startX startY moves).collapsed = !st.collapsed ↔
      ∀ m ∈ moves, (m.1 - startX).natAbs ≤ 10 ∧ (m.2 - startY).natAbs ≤ 10)
    ∧ ((keydownToggle st key).collapsed = !st.collapsed ↔ (key = "Enter" ∨ key = " ")) := by
  constructor
  · rw [← tapIsTap_iff]
    by_cases ht : tapIsTap startX startY moves = true
    · simp [touchEndToggle, ht, toggleCollapse]
    · have e : touchEndToggle st startX startY moves = st := by
        unfold touchEndToggle
        rw [if_neg ht]
      rw [e]
      constructor
      · intro h
        exact absurd h (by cases st.collapsed <;> simp)
      · intro h
        exact absurd h ht
  · by_cases hk : key = "Enter" ∨ key = " "
    · simp [keydownToggle, hk, toggleCollapse]
    · have e : keydownToggle st key = st := by
        unfold keydownToggle
        rw [if_neg hk]
      rw [e]
      constructor
      · intro h
        exact absurd h (by cases st.collapsed <;> simp)
      · intro h
        exact absurd h hk

/-- C7: the generated tocItems list is exactly the filter of the queried
headings by non-exclusion, so it mirrors document order, and every modelled
operation of the manager leaves the list unchanged afterwards. -/
theorem tocItems_mirrors_document_order
    (opts : TableOfContentsOptions) (hs : List Heading) (st : TocState)
    (rectTop : Heading → Int) (smp : Heading → Option Int) (scrollTop now w : Int)
    (tid : Option String) (hp : Bool) (startX startY : Int)
    (moves : List (Int × Int)) (key : String) :
    (generateTOCItems opts hs).map TocItem.element
        = hs.filter (fun h => !shouldExcludeHeading opts h)
    ∧ (updateActiveTOC st rectTop smp scrollTop).tocItems = st.tocItems
    ∧ ((scrollToElementEnter st now).2).tocItems = st.tocItems
    ∧ (onScrollComplete st tid).tocItems = st.tocItems
    ∧ (setupMobileInteraction st w hp).tocItems = st.tocItems
    ∧ (toggleCollapse st).tocItems = st.tocItems
    ∧ (touchEndToggle st startX startY moves).tocItems = st.tocItems
    ∧ (keydownToggle st key).tocItems = st.tocItems
    ∧ (updateDeviceType st w).tocItems = st.tocItems
    ∧ (escapeCollapse st).tocItems = st.tocItems := by
  refine ⟨generateTOCAux_map_element opts hs 0, ?_, ?_, ?_, ?_, rfl, ?_, ?_, rfl, ?_⟩
  · simp only [updateActiveTOC]
    split_ifs <;> rfl
  · simp only [scrollToElementEnter]
    split_ifs <;> rfl
  · cases tid
    · rfl
    · simp only [onScrollComplete]
      split_ifs <;> rfl
  · simp only [setupMobileInteraction]
    split_ifs <;> rfl
  · simp only [touchEndToggle]
    split_ifs <;> rfl
  · simp only [keydownToggle]
    split_ifs <;> rfl
  · simp only [escapeCollapse]
    split_ifs <;> rfl

/-- C9: both config writes target `.walle.config.json` under the project
directory and persist exactly the fields name, walleVersion and updatedAt;
init records the version "main" and update records the resolved short commit
SHA. -/
theorem walleConfig_fields (dirPath projectName projectPath sha now : String) :
    (initConfigWrite dirPath projectName now).1
        = dirPath ++ "/" ++ projectName ++ "/.walle.config.json"
    ∧ (initConfigWrite dirPath projectName now).2
        = [("name", projectName), ("walleVersion", "main"), ("updatedAt", now)]
    ∧ ((initConfigWrite dirPath projectName now).2.map Prod.fst)
        = ["name", "walleVersion", "updatedAt"]
    ∧ (updateConfigWrite projectPath sha now).1 = projectPath ++ "/.walle.config.json"
    ∧ (updateConfigWrite projectPath sha now).2
        = [("name", shBasename projectPath), ("walleVersion", sha), ("updatedAt", now)]
    ∧ ((updateConfigWrite projectPath sha now).2.map Prod.fst)
        = ["name", "walleVersion", "updatedAt"] :=
  ⟨rfl, rfl, rfl, rfl, rfl, rfl⟩

/-- C1: on a scroll-tracking pass with a non-empty TOC and no programmatic
scroll in flight, the offset is 120 off mobile and on mobile the first item's
positively-parsed scroll-margin-top with fallback 100, and the stored active
index is the last TOC position whose element top is at or above
scrollTop + offset, or -1 when no position reaches that line. -/
theorem updateActiveTOC_marks_last_heading (st : TocState) (rectTop : Heading → Int)
    (smp : Heading → Option Int) (scrollTop : Int)
    (hne : st.tocItems ≠ []) (hns : st.isScrolling = false) :
    (st.isMobile = false → getDynamicOffset st smp = 120)
    ∧ (st.isMobile = true →
        getDynamicOffset st smp
          = (match (st.tocItems.head?).map (fun it => smp it.element) with
             | some (some sm) => if 0 < sm then sm else 100
             | some none => 100
             | none => 100))
    ∧ ((∀ t ∈ st.tocItems.map (fun it => rectTop it.element + scrollTop),
          ¬ (t ≤ scrollTop + getDynamicOffset st smp)) →
        (updateActiveTOC st rectTop smp scrollTop).currentActiveIndex = -1)
    ∧ (∀ k : Nat, k < st.tocItems.length →
        (st.tocItems.map (fun it => rectTop it.element + scrollTop)).getD k 0
            ≤ scrollTop + getDynamicOffset st smp →
        (∀ j : Nat, k < j → j < st.tocItems.length →
          ¬ ((st.tocItems.map (fun it => rectTop it.element + scrollTop)).getD j 0
              ≤ scrollTop + getDynamicOffset st smp)) →
        (updateActiveTOC st rectTop smp scrollTop).currentActiveIndex = (k : Int))
    ∧ ((updateActiveTOC st rectTop smp scrollTop).currentActiveIndex = -1
        ∨ ∃ k : Nat, k < st.tocItems.length
            ∧ (st.tocItems.map (fun it => rectTop it.element + scrollTop)).getD k 0
                ≤ scrollTop + getDynamicOffset st smp
            ∧ (∀ j : Nat, k < j → j < st.tocItems.length →
                ¬ ((st.tocItems.map (fun it => rectTop it.element + scrollTop)).getD j 0
                    ≤ scrollTop + getDynamicOffset st smp))
            ∧ (updateActiveTOC st rectTop smp scrollTop).currentActiveIndex = (k : Int)) := by
  have hguard : ¬ (st.tocItems.length = 0 ∨ st.isScrolling = true) := by
    intro hg
    rcases hg with hg | hg
    · exact hne (List.length_eq_zero.mp hg)
    · rw [hns] at hg
      exact Bool.noConfusion hg
  have hlen : (st.tocItems.map (fun it => rectTop it.element + scrollTop)).length
      = st.tocItems.length := List.length_map _ _
  have hupd : (updateActiveTOC st rectTop smp scrollTop).currentActiveIndex
      = activeIndexGo (st.tocItems.map (fun it => rectTop it.element + scrollTop))
          (scrollTop + getDynamicOffset st smp) 0 (-1) := by
    simp only [updateActiveTOC]
    rw [if_neg hguard]
    split_ifs with hch
    · rfl
    · push_neg at hch
      exact hch.symm
  refine ⟨?_, ?_, ?_, ?_, ?_⟩
  · intro hm
    simp [getDynamicOffset, hm]
  · intro hm
    cases hh : st.tocItems.head? with
    | none => simp [getDynamicOffset, hm, hh]
    | some first =>
      cases hsm : smp first.element with
      | none => simp [getDynamicOffset, hm, hh, hsm]
      | some sm => simp [getDynamicOffset, hm, hh, hsm]
  · intro hmiss
    rw [hupd]
    exact activeIndexGo_of_no_hit (scrollTop + getDynamicOffset st smp)
      (st.tocItems.map (fun it => rectTop it.element + scrollTop)) 0 (-1) hmiss
  · intro k hk hhit hlast
    rw [hupd]
    have := activeIndexGo_of_last_hit (scrollTop + getDynamicOffset st smp)
      (st.tocItems.map (fun it => rectTop it.element + scrollTop)) 0 (-1) k
      (by rw [hlen]; exact hk) hhit
      (fun j hj1 hj2 => hlast j hj1 (by rw [← hlen]; exact hj2))
    simpa using this
  · by_cases hex : ∃ k, k < (st.tocItems.map (fun it => rectTop it.element + scrollTop)).length
        ∧ (st.tocItems.map (fun it => rectTop it.element + scrollTop)).getD k 0
            ≤ scrollTop + getDynamicOffset st smp
    · right
      obtain ⟨k, hk, hhit, hlast⟩ := exists_last_hit
        (st.tocItems.map (fun it => rectTop it.element + scrollTop))
        (scrollTop + getDynamicOffset st smp) hex
      refine ⟨k, by rw [← hlen]; exact hk, hhit,
        fun j hj1 hj2 => hlast j hj1 (by rw [hlen]; exact hj2), ?_⟩
      rw [hupd]
      have := activeIndexGo_of_last_hit (scrollTop + getDynamicOffset st smp)
        (st.tocItems.map (fun it => rectTop it.element + scrollTop)) 0 (-1) k hk hhit hlast
      simpa using this
    · left
      push_neg at hex
      rw [hupd]
      refine activeIndexGo_of_no_hit (scrollTop + getDynamicOffset st smp)
        (st.tocItems.map (fun it => rectTop it.element + scrollTop)) 0 (-1) ?_
      rw [← no_hit_forms]
      intro j hj
      exact fun hle => absurd hle (not_le.mpr (hex j hj))

/-- C1 witness: on the two-item desktop state scrolled to 100, the stored
index is either -1 or the last position above the 120 pixel line. -/
theorem updateActiveTOC_marks_last_heading_witness :
    sampleState.tocItems ≠ [] ∧ sampleState.isScrolling = false ∧
      ((updateActiveTOC sampleState sampleRectTop sampleMarginParse 100).currentActiveIndex = -1
        ∨ ∃ k : Nat, k < sampleState.tocItems.length
            ∧ (sampleState.tocItems.map
                (fun it => sampleRectTop it.element + 100)).getD k 0
                ≤ 100 + getDynamicOffset sampleState sampleMarginParse
            ∧ (∀ j : Nat, k < j → j < sampleState.tocItems.length →
                ¬ ((sampleState.tocItems.map
                    (fun it => sampleRectTop it.element + 100)).getD j 0
                    ≤ 100 + getDynamicOffset sampleState sampleMarginParse))
            ∧ (updateActiveTOC sampleState sampleRectTop sampleMarginParse
                100).currentActiveIndex = (k : Int)) := by
  have hne : sampleState.tocItems ≠ [] := by simp [sampleState]
  exact ⟨hne, rfl,
    (updateActiveTOC_marks_last_heading sampleState sampleRectTop sampleMarginParse 100
      hne rfl).2.2.2.2⟩

/-- C3: completing a click navigation forces the clicked link active by
itself: with well-formed (pairwise distinct) item ids, onScrollComplete sets
the active index to the clicked item's position, with no scroll-tracking pass
involved. -/
theorem onScrollComplete_forces_clicked_active (st : TocState) (tid : String) (k : Nat)
    (hk : k < st.tocItems.length)
    (hnd : (st.tocItems.map TocItem.id).Nodup)
    (hid : (st.tocItems.get ⟨k, hk⟩).id = tid) :
    (onScrollComplete st (some tid)).currentActiveIndex = (k : Int) := by
  have hfind : jsFindIndex (fun it => it.id == tid) st.tocItems = (k : Int) :=
    jsFindIndex_id_eq tid st.tocItems k hk hnd hid
  simp only [onScrollComplete]
  rw [hfind]
  by_cases hch : (k : Int) ≠ st.currentActiveIndex
  · rw [if_pos ⟨by omega, hch⟩]
  · rw [if_neg (fun hcon => hch hcon.2)]
    push_neg at hch
    exact hch.symm

/-- C3 witness: clicking the link of the second sample item marks position 1
active. -/
theorem onScrollComplete_forces_clicked_active_witness :
    1 < sampleState.tocItems.length ∧ (sampleState.tocItems.map TocItem.id).Nodup ∧
      (onScrollComplete sampleState (some "usage")).currentActiveIndex = (1 : Int) := by
  have hk : 1 < sampleState.tocItems.length := by simp [sampleState]
  refine ⟨hk, by decide, ?_⟩
  exact onScrollComplete_forces_clicked_active sampleState "usage" 1 hk (by decide) rfl

/-- C6: with the skip attribute, skip class and skip-container attribute
configured, a matched heading is excluded exactly when it carries the skip
attribute, carries the skip class, sits under an ancestor with the container
attribute, matches an exclusion selector, or its trimmed text matches an
exclusion pattern; and generateTOC keeps a queried heading exactly when it is
not excluded. -/
theorem shouldExclude_characterisation (opts : TableOfContentsOptions) (h : Heading)
    (hs : List Heading)
    (ha : opts.skipAttribute ≠ "") (hc : opts.skipClassName ≠ "")
    (hcc : opts.skipContainerAttribute ≠ "") :
    (shouldExcludeHeading opts h = true ↔
      (h.hasAttribute opts.skipAttribute = true
        ∨ h.classListContains opts.skipClassName = true
        ∨ h.closestHasAttr opts.skipContainerAttribute = true
        ∨ (∃ sel ∈ opts.excludeSelectors, h.matchesSelector sel = true)
        ∨ (∃ re ∈ opts.excludeTextPatterns, re (String.trim h.textContent) = true)))
    ∧ (h ∈ hs →
        ((∃ it ∈ generateTOCItems opts hs, it.element = h) ↔
          shouldExcludeHeading opts h = false)) := by
  constructor
  · unfold shouldExcludeHeading
    split_ifs with h1 h2 h3 h4 h5
    · simp only [true_iff]
      exact Or.inl h1.2
    · simp only [true_iff]
      exact Or.inr (Or.inl h2.2)
    · simp only [true_iff]
      exact Or.inr (Or.inr (Or.inl h3.2))
    · simp only [true_iff]
      rw [List.any_eq_true] at h4
      exact Or.inr (Or.inr (Or.inr (Or.inl h4)))
    · simp only [true_iff]
      rw [List.any_eq_true] at h5
      exact Or.inr (Or.inr (Or.inr (Or.inr h5)))
    · constructor
      · intro hfalse
        exact hfalse.elim
      · intro hor
        exfalso
        rcases hor with hx | hx | hx | hx | hx
        · exact h1 ⟨ha, hx⟩
        · exact h2 ⟨hc, hx⟩
        · exact h3 ⟨hcc, hx⟩
        · exact h4 (List.any_eq_true.mpr hx)
        · exact h5 (List.any_eq_true.mpr hx)
  · intro hmem
    have hmap := generateTOCAux_map_element opts hs 0
    constructor
    · rintro ⟨it, hit, rfl⟩
      have hin : it.element ∈ (generateTOCItems opts hs).map TocItem.element :=
        List.mem_map_of_mem TocItem.element hit
      rw [generateTOCItems, hmap] at hin
      have := (List.mem_filter.mp hin).2
      simpa using this
    · intro hex
      have hin : h ∈ hs.filter (fun x => !shouldExcludeHeading opts x) :=
        List.mem_filter.mpr ⟨hmem, by simp [hex]⟩
      rw [← hmap] at hin
      obtain ⟨it, hit, heq⟩ := List.mem_map.mp hin
      exact ⟨it, hit, heq⟩

/-- C6 witness: under the default options the plain sample heading is kept by
generateTOC, as it is not excluded. -/
theorem shouldExclude_characterisation_witness :
    defaultOptions.skipAttribute ≠ "" ∧ defaultOptions.skipClassName ≠ "" ∧
      defaultOptions.skipContainerAttribute ≠ "" ∧
      ((∃ it ∈ generateTOCItems defaultOptions [sampleHeading], it.element = sampleHeading) ↔
        shouldExcludeHeading defaultOptions sampleHeading = false) := by
  refine ⟨by decide, by decide, by decide, ?_⟩
  exact (shouldExclude_characterisation defaultOptions sampleHeading [sampleHeading]
    (by decide) (by decide) (by decide)).2 (List.mem_cons_self _ _)

/-- C8: the claim fails on the code.  In the modelled update run whose
sync_files cp -r exits 1, some invoked command fails, yet every command
still runs, the script exits with status 0 and no [ERROR] line is printed,
because main invokes the subcommand in an if-not test, which suspends
errexit inside the function body and leaves only the script's own guarded
checks able to abort; a failing guarded command (the status-checked git
clone) does abort with status 1 and an [ERROR] line, and the temporary
directory is removed in both runs. -/
theorem cli_unguarded_cp_failure_swallowed :
    (∃ s ∈ updateRunFailingCp, s.code ≠ 0)
    ∧ (runCli updateRunFailingCp).exitCode = 0
    ∧ (runCli updateRunFailingCp).printedErrorLine = false
    ∧ (runCli updateRunFailingCp).stepsRun = updateRunFailingCp.length
    ∧ (runCli updateRunFailingCp).tempDirRemoved = true
    ∧ (runCli updateRunFailingClone).exitCode = 1
    ∧ (runCli updateRunFailingClone).printedErrorLine = true
    ∧ (runCli updateRunFailingClone).tempDirRemoved = true := by
  refine ⟨⟨{ guarded := false, code := 1 }, by decide, by decide⟩,
    by decide, by decide, by decide, by decide, by decide, by decide, by decide⟩

/-- C10: the reading-time record is internally consistent: its word count is
the count over the cleaned text, its minutes field is the ceiling of
words/200 plus 12 seconds per image plus 25 seconds per code block, and its
text field reads "1 minute read" exactly for one minute and pluralises
otherwise, always quoting the minutes field itself. -/
theorem calculateReadingTime_consistent (content : String) :
    ((calculateReadingTime content).words = wordCountOf content)
    ∧ (((calculateReadingTime content).minutes : Int)
        = Int.ceil ((wordCountOf content : ℚ) / 200 + (imageCount content : ℚ) * 12 / 60
            + (codeBlockCount content : ℚ) * 25 / 60))
    ∧ ((calculateReadingTime content).minutes = 1 →
        (calculateReadingTime content).text = "1 minute read")
    ∧ ((calculateReadingTime content).minutes ≠ 1 →
        (calculateReadingTime content).text
          = toString (calculateReadingTime content).minutes ++ " minutes read") := by
  have hnn : (0 : ℚ) ≤ (wordCountOf content : ℚ) / 200 + (imageCount content : ℚ) * 12 / 60
      + (codeBlockCount content : ℚ) * 25 / 60 := by positivity
  have he : (calculateReadingTime content).text
      = toString (calculateReadingTime content).minutes ++ " minute"
        ++ (if (calculateReadingTime content).minutes ≠ 1 then "s" else "") ++ " read" := rfl
  refine ⟨rfl, ?_, ?_, ?_⟩
  · exact Int.toNat_of_nonneg (Int.ceil_nonneg hnn)
  · intro h1
    rw [he, h1]
    rfl
  · intro h1
    rw [he, if_pos h1]
    rw [String.append_assoc, String.append_assoc]
    rfl

/-- C10 witness: the record computed for a concrete post quotes the word
count of its cleaned text. -/
theorem calculateReadingTime_consistent_witness :
    (calculateReadingTime "hello world").words = wordCountOf "hello world" :=
  (calculateReadingTime_consistent "hello world").1
